import Mathlib

/-!
Shallow embedding of the room-session manager of `src/server/src/server.js`
(collab-editor-app). The server keeps three in-memory maps keyed by room id
(`rooms`, `roomClients`, `roomStates`), a MongoDB collection `room_states`
(the persistent store of `{isActive, stoppedAt}` records), and the
`docs` map owned by the y-websocket utilities. Each WebSocket handler is
modelled as a pure function from a `ServerState` to a new `ServerState`
together with the frames it sends, and the `await` boundary inside room
creation (server.js:148-163) is kept explicit by splitting the connection
handler into phases, so that event-loop interleavings around the
`loadRoomState` await can be expressed.

Timestamps (`new Date().toISOString()`) are modelled as `Nat` values passed
in by the caller of each handler; MongoDB writes take a `Bool` telling
whether the write succeeds, since `saveRoomState`/`deleteRoomState` catch
and log their own errors (server.js:53-96).
-/

abbrev RoomId := String
abbrev ClientId := Nat

/-- The `{isActive, stoppedAt}` record kept in `roomStates` and in the
`room_states` MongoDB collection (server.js:130, 156). -/
structure RoomState where
  isActive : Bool
  stoppedAt : Option Nat
deriving DecidableEq, Repr

/-- Structured frames the server sends (server.js:219-224, 254-258,
280-284, 295-299). -/
inductive Frame where
  | roomStopped (stoppedAt : Option Nat) (message : String)
  | roomState (isActive : Bool) (stoppedAt : Option Nat)
  | editBlocked (message : String) (roomId : RoomId) (timestamp : Nat)
deriving DecidableEq, Repr

def blockedMsg : String := "Cannot edit document - collaboration has been stopped"

def stopJoinMsg : String :=
  "This collaboration session has been stopped and is now read-only."

def stopBroadcastMsg : String :=
  "Collaboration session has been stopped. The editor is now read-only."

/-- Lookup in an association list with unique keys (a JS `Map` /
a Mongo collection with a unique index on `roomId`). -/
def alookup {α : Type} (k : RoomId) : List (RoomId × α) → Option α
  | [] => none
  | (k', v) :: rest => if k' = k then some v else alookup k rest

/-- `Map.set` / `replaceOne(..., {upsert:true})`: replace the entry for `k`
or add one. -/
def aset {α : Type} (k : RoomId) (v : α) : List (RoomId × α) → List (RoomId × α)
  | [] => [(k, v)]
  | (k', v') :: rest => if k' = k then (k, v) :: rest else (k', v') :: aset k v rest

/-- `Map.delete` / `deleteOne`: drop the entry for `k` (keys are unique,
so removing every occurrence coincides with removing the one entry). -/
def aerase {α : Type} (k : RoomId) : List (RoomId × α) → List (RoomId × α)
  | [] => []
  | (k', v') :: rest => if k' = k then aerase k rest else (k', v') :: aerase k rest

/-- Remove a key from a list of room ids. -/
def lerase (r : RoomId) : List RoomId → List RoomId
  | [] => []
  | x :: xs => if x = r then lerase r xs else x :: lerase r xs

/-- `Set.delete` on a room's client set. -/
def cremove (c : ClientId) : List (ClientId × Bool) → List (ClientId × Bool)
  | [] => []
  | p :: rest => if p.1 = c then cremove c rest else p :: cremove c rest

/-- `Map.has` on a list of keys. -/
def memb (r : RoomId) : List RoomId → Bool
  | [] => false
  | x :: xs => if x = r then true else memb r xs

/-- The server's whole mutable state. `rooms` and `docs` are modelled by
their key sets (the docs themselves are opaque); `engineLog` records every
binary delta actually handed to the Yjs message processing (the Document
Engine); `snapshots` records final-state flushes done at teardown
(server.js:332); `errorLog` records persistence errors that were caught
and logged (server.js:66, 94). -/
structure ServerState where
  rooms : List RoomId
  roomClients : List (RoomId × List (ClientId × Bool))
  roomStates : List (RoomId × RoomState)
  store : List (RoomId × RoomState)
  docs : List RoomId
  engineLog : List (RoomId × ClientId)
  snapshots : List RoomId
  errorLog : List String
deriving DecidableEq, Repr

/-- server.js:53-68 — upsert the room record; a failed write is caught
inside the function, logged, and swallowed (the caller is never told). -/
def saveRoomState (st : ServerState) (r : RoomId) (rs : RoomState) (ok : Bool) :
    ServerState :=
  if ok then { st with store := aset r rs st.store }
  else { st with errorLog := st.errorLog ++ ["save-failed:" ++ r] }

/-- server.js:89-96 — delete the room record; a failed delete is caught,
logged, and swallowed. -/
def deleteRoomState (st : ServerState) (r : RoomId) (ok : Bool) : ServerState :=
  if ok then { st with store := aerase r st.store }
  else { st with errorLog := st.errorLog ++ ["delete-failed:" ++ r] }

/-- server.js:148-152 — the synchronous part of room creation: the
`rooms.has` check, `rooms.set` and `roomClients.set` run with no `await`
in between, so they are one atomic event-loop segment. Returns the state
after this segment and whether a creation (with its pending
`loadRoomState` await) was started. -/
def connectA (st : ServerState) (r : RoomId) : ServerState × Bool :=
  if memb r st.rooms then (st, false)
  else ({ st with rooms := r :: st.rooms, roomClients := aset r [] st.roomClients },
        true)

/-- server.js:154-162 — the continuation after the `loadRoomState` await
resolves: seed `roomStates` from the persisted record, or install and save
the default `{isActive: true, stoppedAt: null}`. `ok` is whether the
default-record write succeeds. -/
def connectB (st : ServerState) (r : RoomId) (ok : Bool) : ServerState :=
  match alookup r st.store with
  | some ps => { st with roomStates := aset r ps st.roomStates }
  | none =>
      let rs : RoomState := ⟨true, none⟩
      saveRoomState { st with roomStates := aset r rs st.roomStates } r rs ok

/-- server.js:165-259 — the rest of the connection handler: add the client
to the room (connections start OPEN), let `setupWSConnection` register the
doc in the y-websocket `docs` map, and — if the room state says stopped —
immediately unicast `room-stopped` to the new client. -/
def connectC (st : ServerState) (r : RoomId) (c : ClientId) :
    ServerState × List (ClientId × Frame) :=
  let st' : ServerState :=
    { st with
      roomClients := aset r (((alookup r st.roomClients).getD []) ++ [(c, true)])
        st.roomClients,
      docs := if memb r st.docs then st.docs else r :: st.docs }
  let out : List (ClientId × Frame) :=
    match alookup r st'.roomStates with
    | some rs =>
        if rs.isActive then [] else [(c, Frame.roomStopped rs.stoppedAt stopJoinMsg)]
    | none => []
  (st', out)

/-- server.js:132-259 — the whole connection handler run without
interleaving: creation phase, then (when a creation started) the
post-await phase, then client registration. -/
def handleConnect (st : ServerState) (r : RoomId) (c : ClientId) (ok : Bool) :
    ServerState × List (ClientId × Frame) :=
  let p := connectA st r
  let st2 := if p.2 then connectB p.1 r ok else p.1
  connectC st2 r c

/-- server.js:206-243 — the patched `ws.emit` observing a binary frame:
when the room's in-memory state exists and is stopped, send `edit-blocked`
to the sender and drop the frame; otherwise the frame reaches the Yjs
message processing (recorded in `engineLog`). -/
def handleBinary (st : ServerState) (r : RoomId) (c : ClientId) (now : Nat) :
    ServerState × List (ClientId × Frame) :=
  let blocked : Bool :=
    match alookup r st.roomStates with
    | some rs => !rs.isActive
    | none => false
  if blocked then (st, [(c, Frame.editBlocked blockedMsg r now)])
  else ({ st with engineLog := st.engineLog ++ [(r, c)] }, [])

/-- server.js:266-291 — the `stop-collaboration` handler: only when the
room state exists and is active, flip it to stopped with `stoppedAt = now`,
persist (awaited), then broadcast `room-stopped` to every OPEN client of
the room. On an already-stopped room the whole block is skipped. -/
def handleStop (st : ServerState) (r : RoomId) (now : Nat) (ok : Bool) :
    ServerState × List (ClientId × Frame) :=
  match alookup r st.roomStates with
  | some rs =>
      if rs.isActive then
        let rs' : RoomState := ⟨false, some now⟩
        let st1 := saveRoomState { st with roomStates := aset r rs' st.roomStates } r rs' ok
        let clients := (alookup r st1.roomClients).getD []
        (st1, clients.filterMap fun p =>
          if p.2 then some (p.1, Frame.roomStopped (some now) stopBroadcastMsg)
          else none)
      else (st, [])
  | none => (st, [])

/-- server.js:292-300 — the `get-room-state` handler: reply to the sender
with `{roomState?.isActive ?? true, roomState?.stoppedAt ?? null}`. -/
def handleGetRoomState (st : ServerState) (r : RoomId) (c : ClientId) :
    ServerState × List (ClientId × Frame) :=
  match alookup r st.roomStates with
  | some rs => (st, [(c, Frame.roomState rs.isActive rs.stoppedAt)])
  | none => (st, [(c, Frame.roomState true none)])

/-- server.js:307-338 — the close handler: remove the client; when the room
became empty, read the room state, drop the three in-memory entries, delete
the store record only if the room was still active, and — when the
y-websocket `docs` map has the doc — flush its final snapshot and destroy
it. `ok` is whether the store delete succeeds. -/
def handleClose (st : ServerState) (r : RoomId) (c : ClientId) (ok : Bool) :
    ServerState :=
  match alookup r st.roomClients with
  | none => st
  | some clients =>
      let clients' := cremove c clients
      if clients'.isEmpty then
        let rsOpt := alookup r st.roomStates
        let st1 : ServerState :=
          { st with rooms := lerase r st.rooms,
                    roomClients := aerase r st.roomClients,
                    roomStates := aerase r st.roomStates }
        let st2 :=
          match rsOpt with
          | some rs => if rs.isActive then deleteRoomState st1 r ok else st1
          | none => st1
        if memb r st2.docs then
          { st2 with snapshots := st2.snapshots ++ [r],
                     docs := lerase r st2.docs }
        else st2
      else { st with roomClients := aset r clients' st.roomClients }

/-- One inbound event at the server, dispatching to the handlers above. -/
inductive Event where
  | connect (r : RoomId) (c : ClientId) (ok : Bool)
  | binary (r : RoomId) (c : ClientId) (now : Nat)
  | stop (r : RoomId) (now : Nat) (ok : Bool)
  | getState (r : RoomId) (c : ClientId)
  | close (r : RoomId) (c : ClientId) (ok : Bool)
deriving DecidableEq, Repr

def step (st : ServerState) : Event → ServerState × List (ClientId × Frame)
  | .connect r c ok => handleConnect st r c ok
  | .binary r c now => handleBinary st r c now
  | .stop r now ok => handleStop st r now ok
  | .getState r c => handleGetRoomState st r c
  | .close r c ok => (handleClose st r c ok, [])

/-- Whether all MongoDB writes an event performs succeed. -/
def Event.allOk : Event → Bool
  | .connect _ _ ok => ok
  | .stop _ _ ok => ok
  | .close _ _ ok => ok
  | _ => true

/-- Every live room has a metadata record in the store. -/
def StoreInv (st : ServerState) : Prop :=
  ∀ r, memb r st.rooms = true → (alookup r st.store).isSome = true

/-! ## Association-list and membership lemmas -/

theorem alookup_aset_self {α : Type} (k : RoomId) (v : α) (l : List (RoomId × α)) :
    alookup k (aset k v l) = some v := by
  induction l with
  | nil => simp [aset, alookup]
  | cons p rest ih =>
      obtain ⟨k', v'⟩ := p
      by_cases h : k' = k
      · simp [aset, alookup, h]
      · simp [aset, alookup, h, ih]

theorem alookup_aset_ne {α : Type} {k k' : RoomId} (v : α) (l : List (RoomId × α))
    (h : k' ≠ k) : alookup k (aset k' v l) = alookup k l := by
  induction l with
  | nil => simp [aset, alookup, h]
  | cons p rest ih =>
      obtain ⟨k₀, v₀⟩ := p
      by_cases h0 : k₀ = k'
      · subst h0
        simp [aset, alookup, h]
      · simp [aset, alookup, h0, ih]

theorem alookup_aerase_self {α : Type} (k : RoomId) (l : List (RoomId × α)) :
    alookup k (aerase k l) = none := by
  induction l with
  | nil => simp [aerase, alookup]
  | cons p rest ih =>
      obtain ⟨k', v'⟩ := p
      by_cases h : k' = k
      · simp [aerase, h, ih]
      · simp [aerase, alookup, h, ih]

theorem alookup_aerase_ne {α : Type} {k k' : RoomId} (l : List (RoomId × α))
    (h : k' ≠ k) : alookup k (aerase k' l) = alookup k l := by
  induction l with
  | nil => simp [aerase, alookup]
  | cons p rest ih =>
      obtain ⟨k₀, v₀⟩ := p
      by_cases h0 : k₀ = k'
      · subst h0
        simp [aerase, alookup, h, ih]
      · simp [aerase, alookup, h0, ih]

theorem memb_iff (r : RoomId) (l : List RoomId) : memb r l = true ↔ r ∈ l := by
  induction l with
  | nil => simp [memb]
  | cons x xs ih =>
      by_cases h : x = r
      · simp [memb, h]
      · simp [memb, h, ih, Ne.symm h]

theorem memb_eq_false_iff (r : RoomId) (l : List RoomId) :
    memb r l = false ↔ r ∉ l := by
  rw [← memb_iff]
  cases memb r l <;> simp

theorem memb_lerase_self (r : RoomId) (l : List RoomId) :
    memb r (lerase r l) = false := by
  induction l with
  | nil => simp [lerase, memb]
  | cons x xs ih =>
      by_cases h : x = r
      · simp [lerase, h, ih]
      · simp [lerase, memb, h, ih]

theorem memb_lerase_ne {r r' : RoomId} (l : List RoomId) (h : r' ≠ r) :
    memb r (lerase r' l) = memb r l := by
  induction l with
  | nil => simp [lerase]
  | cons x xs ih =>
      by_cases h0 : x = r'
      · subst h0
        simp [lerase, memb, h, ih]
      · simp [lerase, memb, h0, ih]

theorem mem_of_mem_lerase {a r : RoomId} {l : List RoomId}
    (h : a ∈ lerase r l) : a ∈ l := by
  induction l with
  | nil => simp [lerase] at h
  | cons x xs ih =>
      by_cases h0 : x = r
      · simp only [lerase, if_pos h0] at h
        exact List.mem_cons_of_mem x (ih h)
      · simp only [lerase, if_neg h0] at h
        rcases List.mem_cons.mp h with h1 | h1
        · subst h1
          exact List.mem_cons_self _ _
        · exact List.mem_cons_of_mem x (ih h1)

theorem nodup_lerase (r : RoomId) {l : List RoomId} (h : l.Nodup) :
    (lerase r l).Nodup := by
  induction l with
  | nil => simp [lerase]
  | cons x xs ih =>
      rcases List.nodup_cons.mp h with ⟨hx, hxs⟩
      by_cases h0 : x = r
      · simpa [lerase, h0] using ih hxs
      · simp only [lerase, if_neg h0]
        exact List.nodup_cons.mpr ⟨fun hc => hx (mem_of_mem_lerase hc), ih hxs⟩

/-! ## Field-frame lemmas for the handlers -/

theorem connectB_rooms (st : ServerState) (r : RoomId) (ok : Bool) :
    (connectB st r ok).rooms = st.rooms := by
  cases h : alookup r st.store <;> cases ok <;> simp [connectB, h, saveRoomState]

theorem connectC_state (st : ServerState) (r : RoomId) (c : ClientId) :
    (connectC st r c).1
      = { st with
          roomClients :=
            aset r (((alookup r st.roomClients).getD []) ++ [(c, true)])
              st.roomClients,
          docs := if memb r st.docs then st.docs else r :: st.docs } := rfl

theorem handleConnect_rooms (st : ServerState) (r : RoomId) (c : ClientId)
    (ok : Bool) :
    (handleConnect st r c ok).1.rooms
      = if memb r st.rooms then st.rooms else r :: st.rooms := by
  by_cases hm : memb r st.rooms <;>
    simp [handleConnect, connectA, hm, connectB_rooms, connectC_state]

theorem handleConnect_existing_fields (st : ServerState) (r : RoomId)
    (c : ClientId) (ok : Bool) (hm : memb r st.rooms = true) :
    (handleConnect st r c ok).1.rooms = st.rooms ∧
    (handleConnect st r c ok).1.store = st.store := by
  simp [handleConnect, connectA, hm, connectC_state]

theorem handleBinary_fields (st : ServerState) (r : RoomId) (c : ClientId)
    (now : Nat) :
    (handleBinary st r c now).1.rooms = st.rooms ∧
    (handleBinary st r c now).1.roomStates = st.roomStates ∧
    (handleBinary st r c now).1.store = st.store := by
  cases h : alookup r st.roomStates with
  | none => simp [handleBinary, h]
  | some rs => cases hA : rs.isActive <;> simp [handleBinary, h, hA]

theorem handleStop_rooms (st : ServerState) (r : RoomId) (now : Nat) (ok : Bool) :
    (handleStop st r now ok).1.rooms = st.rooms := by
  cases h : alookup r st.roomStates with
  | none => simp [handleStop, h]
  | some rs =>
      cases hA : rs.isActive <;> cases ok <;>
        simp [handleStop, h, hA, saveRoomState]

theorem handleGetRoomState_state (st : ServerState) (r : RoomId) (c : ClientId) :
    (handleGetRoomState st r c).1 = st := by
  cases h : alookup r st.roomStates <;> simp [handleGetRoomState, h]

theorem handleClose_cases (st : ServerState) (r : RoomId) (c : ClientId)
    (ok : Bool) :
    ((handleClose st r c ok).rooms = st.rooms ∧
      (handleClose st r c ok).store = st.store) ∨
    ((handleClose st r c ok).rooms = lerase r st.rooms ∧
      ((handleClose st r c ok).store = st.store ∨
        (handleClose st r c ok).store = aerase r st.store)) := by
  cases hc : alookup r st.roomClients with
  | none => exact Or.inl ⟨by simp [handleClose, hc], by simp [handleClose, hc]⟩
  | some clients =>
      by_cases he : (cremove c clients).isEmpty
      · right
        cases hs : alookup r st.roomStates with
        | none =>
            by_cases hd : memb r st.docs <;>
              simp [handleClose, hc, he, hs, hd]
        | some rs =>
            cases hA : rs.isActive <;> cases ok <;>
              by_cases hd : memb r st.docs <;>
                simp [handleClose, hc, he, hs, hA, hd, deleteRoomState]
      · exact Or.inl ⟨by simp [handleClose, hc, he], by simp [handleClose, hc, he]⟩

/-! ## Concrete states used by witnesses and counterexamples -/

/-- The server's state right after start: every map empty. -/
def emptyState : ServerState := ⟨[], [], [], [], [], [], [], []⟩

/-- Room "r" active with two open clients, record persisted. -/
def demoActive : ServerState :=
  ⟨["r"], [("r", [(1, true), (2, true)])], [("r", ⟨true, none⟩)],
   [("r", ⟨true, none⟩)], ["r"], [], [], []⟩

/-- Room "r" stopped at time 7, two open clients. -/
def demoStopped : ServerState :=
  ⟨["r"], [("r", [(1, true), (2, true)])], [("r", ⟨false, some 7⟩)],
   [("r", ⟨false, some 7⟩)], ["r"], [], [], []⟩

/-- Room "q" active with one remaining client. -/
def demoActiveLast : ServerState :=
  ⟨["q"], [("q", [(5, true)])], [("q", ⟨true, none⟩)],
   [("q", ⟨true, none⟩)], ["q"], [], [], []⟩

/-- All participants of the stopped room "r" left; only the store record
(and an old snapshot) remain. -/
def demoVacated : ServerState :=
  ⟨[], [], [], [("r", ⟨false, some 7⟩)], [], [], ["r"], []⟩

/-! ## Claims -/

/-- C1: whenever a binary frame is observed on a room whose in-memory state
is Stopped (`isActive = false`), the frame is never handed to the Document
Engine — the server state, in particular the log of deltas the Yjs message
processing received, is left untouched — and the sender is notified with an
`edit-blocked` frame. This holds at every such observation, so for every
delta arriving after the Active-to-Stopped transition while the state reads
Stopped. -/
theorem stopped_session_blocks_binary (st : ServerState) (r : RoomId)
    (t : Option Nat) (c : ClientId) (now : Nat)
    (h : alookup r st.roomStates = some ⟨false, t⟩) :
    (handleBinary st r c now).1 = st ∧
    (handleBinary st r c now).2 = [(c, Frame.editBlocked blockedMsg r now)] := by
  simp [handleBinary, h]

theorem stopped_session_blocks_binary_witness :
    (handleBinary demoStopped "r" 2 9).1 = demoStopped ∧
    (handleBinary demoStopped "r" 2 9).2
      = [(2, Frame.editBlocked blockedMsg "r" 9)] :=
  stopped_session_blocks_binary demoStopped "r" (some 7) 2 9 (by decide)

/-- C2: a second stop-collaboration request right after a first one changes
nothing at all: the state (so the single `stoppedAt` value and the single
persisted record) is exactly the one the first request left, and no frame
is sent. -/
theorem stop_collaboration_idempotent (st : ServerState) (r : RoomId)
    (now now' : Nat) (ok ok' : Bool) :
    handleStop (handleStop st r now ok).1 r now' ok'
      = ((handleStop st r now ok).1, []) := by
  cases h : alookup r st.roomStates with
  | none => simp [handleStop, h]
  | some rs =>
      cases hA : rs.isActive
      · simp [handleStop, h, hA]
      · cases ok <;>
          simp [handleStop, h, hA, saveRoomState, alookup_aset_self]

/-- C4: the edit-blocked notice produced for a binary delta rejected in a
Stopped room is a single frame addressed to the offending sender — it is
unicast, never sent to the other participants of the room. -/
theorem edit_blocked_unicast_to_sender (st : ServerState) (r : RoomId)
    (t : Option Nat) (c : ClientId) (now : Nat)
    (h : alookup r st.roomStates = some ⟨false, t⟩) :
    (handleBinary st r c now).2.length = 1 ∧
    ∀ cl fr, (cl, fr) ∈ (handleBinary st r c now).2 →
      cl = c ∧ fr = Frame.editBlocked blockedMsg r now := by
  simp [handleBinary, h]

theorem edit_blocked_unicast_to_sender_witness :
    (handleBinary demoStopped "r" 2 9).2.length = 1 ∧
    ∀ cl fr, (cl, fr) ∈ (handleBinary demoStopped "r" 2 9).2 →
      cl = 2 ∧ fr = Frame.editBlocked blockedMsg "r" 9 :=
  edit_blocked_unicast_to_sender demoStopped "r" (some 7) 2 9 (by decide)

/-- C3: an accepted stop-collaboration on an Active session flips the state
to Stopped with `stoppedAt = now`, upserts that record to the persistent
store (the awaited write succeeding here), and then sends the
`room-stopped` frame — timestamp plus human-readable reason — to exactly
the clients currently connected (open) in that room, the triggering sender
included. -/
theorem stop_transition_persists_then_broadcasts (st : ServerState)
    (r : RoomId) (t : Option Nat) (now : Nat)
    (h : alookup r st.roomStates = some ⟨true, t⟩) :
    alookup r (handleStop st r now true).1.roomStates = some ⟨false, some now⟩ ∧
    alookup r (handleStop st r now true).1.store = some ⟨false, some now⟩ ∧
    ∀ cl fr, (cl, fr) ∈ (handleStop st r now true).2 ↔
      ((cl, true) ∈ (alookup r st.roomClients).getD [] ∧
        fr = Frame.roomStopped (some now) stopBroadcastMsg) := by
  have hout : (handleStop st r now true).2
      = ((alookup r st.roomClients).getD []).filterMap
          (fun p => if p.2 then
            some (p.1, Frame.roomStopped (some now) stopBroadcastMsg)
          else none) := by
    simp [handleStop, h, saveRoomState]
  refine ⟨?_, ?_, ?_⟩
  · simp [handleStop, h, saveRoomState, alookup_aset_self]
  · simp [handleStop, h, saveRoomState, alookup_aset_self]
  · intro cl fr
    rw [hout]
    constructor
    · intro hm
      rcases List.mem_filterMap.mp hm with ⟨p, hp, he⟩
      by_cases h2 : p.2
      · simp only [h2, if_true, Option.some.injEq, Prod.mk.injEq] at he
        rcases he with ⟨he1, he2⟩
        refine ⟨?_, he2.symm⟩
        have hpe : p = (cl, true) := by
          cases p
          simp only [Prod.mk.injEq]
          exact ⟨he1, by simpa using h2⟩
        exact hpe ▸ hp
      · simp [h2] at he
    · rintro ⟨hm, rfl⟩
      exact List.mem_filterMap.mpr ⟨(cl, true), hm, by simp⟩

theorem stop_transition_persists_then_broadcasts_witness :
    alookup "r" (handleStop demoActive "r" 7 true).1.roomStates
      = some ⟨false, some 7⟩ ∧
    alookup "r" (handleStop demoActive "r" 7 true).1.store
      = some ⟨false, some 7⟩ ∧
    ((1, Frame.roomStopped (some 7) stopBroadcastMsg)
        ∈ (handleStop demoActive "r" 7 true).2 ∧
      (2, Frame.roomStopped (some 7) stopBroadcastMsg)
        ∈ (handleStop demoActive "r" 7 true).2) := by
  obtain ⟨h1, h2, h3⟩ :=
    stop_transition_persists_then_broadcasts demoActive "r" none 7 (by decide)
  exact ⟨h1, h2,
    (h3 1 (Frame.roomStopped (some 7) stopBroadcastMsg)).mpr ⟨by decide, rfl⟩,
    (h3 2 (Frame.roomStopped (some 7) stopBroadcastMsg)).mpr ⟨by decide, rfl⟩⟩

/-- C5 counterexample: at a concrete Active room with one triggering client,
a failing metadata write during the stop transition is invisible to the
participants — the frames sent are exactly those of the successful run, so
no failure is surfaced to the triggering caller — and no retry happens: the
store is left untouched and the only trace is an internal log line. -/
theorem stop_persistence_failure_invisible_to_caller :
    (handleStop demoActive "r" 7 false).2 = (handleStop demoActive "r" 7 true).2 ∧
    (handleStop demoActive "r" 7 false).1.store = demoActive.store ∧
    (handleStop demoActive "r" 7 false).1.errorLog = ["save-failed:" ++ "r"] := by
  decide

/-- C5 amended: when the store write of the stop transition fails, the
in-memory transition to Stopped still takes effect and is never rolled
back; but the failure is only caught and logged inside `saveRoomState` —
the triggering caller receives exactly the frames of a successful run (no
failure notice), and the write is not retried (the store stays unchanged;
the only trace is one error-log entry). -/
theorem stop_transition_survives_persistence_failure (st : ServerState)
    (r : RoomId) (t : Option Nat) (now : Nat)
    (h : alookup r st.roomStates = some ⟨true, t⟩) :
    (∀ ok, alookup r (handleStop st r now ok).1.roomStates
      = some ⟨false, some now⟩) ∧
    (handleStop st r now false).2 = (handleStop st r now true).2 ∧
    (handleStop st r now false).1.store = st.store ∧
    (handleStop st r now false).1.errorLog
      = st.errorLog ++ ["save-failed:" ++ r] := by
  refine ⟨?_, ?_, ?_, ?_⟩
  · intro ok
    cases ok <;> simp [handleStop, h, saveRoomState, alookup_aset_self]
  · simp [handleStop, h, saveRoomState]
  · simp [handleStop, h, saveRoomState]
  · simp [handleStop, h, saveRoomState]

theorem stop_transition_survives_persistence_failure_witness :
    (∀ ok, alookup "r" (handleStop demoActive "r" 7 ok).1.roomStates
      = some ⟨false, some 7⟩) ∧
    (handleStop demoActive "r" 7 false).2 = (handleStop demoActive "r" 7 true).2 ∧
    (handleStop demoActive "r" 7 false).1.store = demoActive.store ∧
    (handleStop demoActive "r" 7 false).1.errorLog
      = demoActive.errorLog ++ ["save-failed:" ++ "r"] :=
  stop_transition_survives_persistence_failure demoActive "r" none 7 (by decide)

/-- C6: when the last participant leaves a room (the client set becomes
empty), the store record is deleted exactly when the session was still
Active and retained when it was Stopped; in both cases the in-memory
session — registry entry, client set, room state — is removed, the doc's
final snapshot is flushed, and the doc instance is dropped from the docs
map. -/
theorem last_leave_teardown_store_policy (st : ServerState) (r : RoomId)
    (rs : RoomState) (c : ClientId) (clients : List (ClientId × Bool))
    (hc : alookup r st.roomClients = some clients)
    (hlast : cremove c clients = [])
    (hs : alookup r st.roomStates = some rs)
    (hd : memb r st.docs = true) :
    alookup r (handleClose st r c true).store
      = (if rs.isActive then none else alookup r st.store) ∧
    memb r (handleClose st r c true).rooms = false ∧
    alookup r (handleClose st r c true).roomClients
      = (none : Option (List (ClientId × Bool))) ∧
    alookup r (handleClose st r c true).roomStates = (none : Option RoomState) ∧
    (handleClose st r c true).snapshots = st.snapshots ++ [r] ∧
    memb r (handleClose st r c true).docs = false := by
  cases hA : rs.isActive <;>
    simp [handleClose, hc, hlast, hs, hd, hA, deleteRoomState,
      alookup_aerase_self, memb_lerase_self]

theorem last_leave_teardown_store_policy_witness :
    (alookup "q" (handleClose demoActiveLast "q" 5 true).store
      = (if (⟨true, none⟩ : RoomState).isActive then none
         else alookup "q" demoActiveLast.store) ∧
    memb "q" (handleClose demoActiveLast "q" 5 true).rooms = false ∧
    alookup "q" (handleClose demoActiveLast "q" 5 true).roomClients
      = (none : Option (List (ClientId × Bool))) ∧
    alookup "q" (handleClose demoActiveLast "q" 5 true).roomStates
      = (none : Option RoomState) ∧
    (handleClose demoActiveLast "q" 5 true).snapshots
      = demoActiveLast.snapshots ++ ["q"] ∧
    memb "q" (handleClose demoActiveLast "q" 5 true).docs = false) :=
  last_leave_teardown_store_policy demoActiveLast "q" ⟨true, none⟩ 5
    [(5, true)] (by decide) (by decide) (by decide) (by decide)

/-- C7: every join that resolves a Stopped session — whether the session is
live, or is freshly recreated by this very join from the store record left
behind after all prior participants had left — immediately sends the
joining client a `room-stopped` frame carrying the original `stoppedAt`,
with no `get-room-state` query involved. -/
theorem join_stopped_session_immediate_unicast (st : ServerState)
    (r : RoomId) (c : ClientId) (ok : Bool) (t : Option Nat)
    (h : (memb r st.rooms = false ∧ alookup r st.store = some ⟨false, t⟩)
       ∨ (memb r st.rooms = true ∧ alookup r st.roomStates = some ⟨false, t⟩)) :
    (handleConnect st r c ok).2 = [(c, Frame.roomStopped t stopJoinMsg)] := by
  rcases h with ⟨h1, h2⟩ | ⟨h1, h2⟩
  · simp [handleConnect, connectA, connectB, connectC, h1, h2,
      alookup_aset_self]
  · simp [handleConnect, connectA, connectC, h1, h2]

theorem join_stopped_session_immediate_unicast_witness :
    (handleConnect demoVacated "r" 3 true).2
      = [(3, Frame.roomStopped (some 7) stopJoinMsg)] :=
  join_stopped_session_immediate_unicast demoVacated "r" 3 true (some 7)
    (Or.inl ⟨by decide, by decide⟩)

/-- C8: a `get-room-state` message is always answered with a `room-state`
frame reflecting the session's current state — in the Active and in the
Stopped state alike — and on a room created fresh by a first join with no
prior store record the answer is `isActive = true`, `stoppedAt = null`. -/
theorem get_room_state_always_answered (st st0 : ServerState) (r : RoomId)
    (rs : RoomState) (c c0 : ClientId)
    (h : alookup r st.roomStates = some rs)
    (h0r : memb r st0.rooms = false) (h0s : alookup r st0.store = none) :
    (handleGetRoomState st r c).2
      = [(c, Frame.roomState rs.isActive rs.stoppedAt)] ∧
    (handleGetRoomState (handleConnect st0 r c0 true).1 r c).2
      = [(c, Frame.roomState true none)] := by
  constructor
  · simp [handleGetRoomState, h]
  · simp [handleGetRoomState, handleConnect, connectA, connectB, connectC,
      saveRoomState, h0r, h0s, alookup_aset_self]

theorem get_room_state_always_answered_witness :
    (handleGetRoomState demoStopped "r" 2).2
      = [(2, Frame.roomState (⟨false, some 7⟩ : RoomState).isActive
            (⟨false, some 7⟩ : RoomState).stoppedAt)] ∧
    (handleGetRoomState (handleConnect emptyState "r" 1 true).1 "r" 2).2
      = [(2, Frame.roomState true none)] :=
  get_room_state_always_answered demoStopped emptyState "r" ⟨false, some 7⟩
    2 1 (by decide) (by decide) (by decide)

theorem memb_cons (r x : RoomId) (l : List RoomId) :
    memb r (x :: l) = (if x = r then true else memb r l) := rfl

theorem handleConnect_new_store (st : ServerState) (r : RoomId) (c : ClientId)
    (hm : memb r st.rooms = false) :
    (handleConnect st r c true).1.rooms = r :: st.rooms ∧
    ((alookup r st.store = none ∧
        (handleConnect st r c true).1.store = aset r ⟨true, none⟩ st.store) ∨
      (∃ ps, alookup r st.store = some ps ∧
        (handleConnect st r c true).1.store = st.store)) := by
  constructor
  · rw [handleConnect_rooms]
    simp [hm]
  · cases hst : alookup r st.store with
    | none =>
        left
        refine ⟨rfl, ?_⟩
        simp [handleConnect, connectA, connectB, connectC_state,
          saveRoomState, hm, hst]
    | some ps =>
        right
        exact ⟨ps, rfl,
          by simp [handleConnect, connectA, connectB, connectC_state, hm, hst]⟩

theorem handleStop_store (st : ServerState) (r : RoomId) (now : Nat) :
    (handleStop st r now true).1.store = st.store ∨
    (handleStop st r now true).1.store = aset r ⟨false, some now⟩ st.store := by
  cases h : alookup r st.roomStates with
  | none => left; simp [handleStop, h]
  | some rs =>
      cases hA : rs.isActive
      · left; simp [handleStop, h, hA]
      · right; simp [handleStop, h, hA, saveRoomState]

/-- C9 counterexample: from a server with no live session for room "r" but
a stopped store record for it, the synchronous creation segment of a first
join makes the session visible in the registry while the store read is
still pending (`roomStates` is not yet seeded), and a second join processed
inside that window observes the half-created session yet is sent no frame
at all — in particular not the `room-stopped` unicast the stored state
calls for. So session creation does not complete its store read before the
session becomes visible to other callers. -/
theorem session_visible_before_store_read :
    (connectA demoVacated "r").2 = true ∧
    memb "r" (connectA demoVacated "r").1.rooms = true ∧
    alookup "r" (connectA demoVacated "r").1.roomStates = none ∧
    (handleConnect (connectA demoVacated "r").1 "r" 2 true).2 = [] := by
  decide

/-- C9 amended: at most one live RoomSession per room id is guaranteed —
the registry check and insert are one synchronous event-loop segment, so a
second creation attempt for the same id always finds the room present and
creates nothing, and every event preserves distinctness of the registry's
keys; however, the freshly inserted session is visible to other callers
before the metadata read from the store completes (the claimed
read-before-visibility does not hold; see the counterexample). -/
theorem single_creator_per_room (st : ServerState) (r : RoomId) (e : Event)
    (h : st.rooms.Nodup) :
    (connectA (connectA st r).1 r).2 = false ∧ (step st e).1.rooms.Nodup := by
  constructor
  · cases hm : memb r st.rooms
    · simp [connectA, hm, memb]
    · simp [connectA, hm]
  · cases e with
    | connect r' c' okk =>
        show (handleConnect st r' c' okk).1.rooms.Nodup
        rw [handleConnect_rooms]
        cases hm : memb r' st.rooms
        · simp only [hm, Bool.false_eq_true, if_false]
          exact List.nodup_cons.mpr ⟨(memb_eq_false_iff r' st.rooms).mp hm, h⟩
        · simpa using h
    | binary r' c' now =>
        show (handleBinary st r' c' now).1.rooms.Nodup
        rw [(handleBinary_fields st r' c' now).1]
        exact h
    | stop r' now okk =>
        show (handleStop st r' now okk).1.rooms.Nodup
        rw [handleStop_rooms]
        exact h
    | getState r' c' =>
        show (handleGetRoomState st r' c').1.rooms.Nodup
        rw [handleGetRoomState_state]
        exact h
    | close r' c' okk =>
        show (handleClose st r' c' okk).rooms.Nodup
        rcases handleClose_cases st r' c' okk with ⟨h1, _⟩ | ⟨h1, _⟩ <;> rw [h1]
        · exact h
        · exact nodup_lerase r' h

theorem single_creator_per_room_witness :
    (connectA (connectA emptyState "r").1 "r").2 = false ∧
    (step emptyState (Event.getState "r" 1)).1.rooms.Nodup :=
  single_creator_per_room emptyState "r" (Event.getState "r" 1) (by simp [emptyState])

/-- C10: the first join that creates a room with no persisted metadata
record immediately upserts the default `{isActive: true, stoppedAt: null}`
record to the store — at creation time, not only at state transitions —
and, with every store write succeeding, each event preserves the invariant
that every live room has a metadata record in the store. -/
theorem fresh_room_writes_default_record (st : ServerState) (r : RoomId)
    (c : ClientId) (e : Event)
    (h1 : memb r st.rooms = false) (h2 : alookup r st.store = none)
    (hok : e.allOk = true) :
    alookup r (handleConnect st r c true).1.store = some ⟨true, none⟩ ∧
    (StoreInv st → StoreInv (step st e).1) := by
  constructor
  · simp [handleConnect, connectA, connectB, connectC_state, saveRoomState,
      h1, h2, alookup_aset_self]
  · intro hInv
    cases e with
    | connect r' c' okk =>
        have hokk : okk = true := by simpa [Event.allOk] using hok
        subst hokk
        intro q hq
        simp only [step] at hq ⊢
        cases hm : memb r' st.rooms
        · obtain ⟨hr, hsd⟩ := handleConnect_new_store st r' c' hm
          rw [hr] at hq
          by_cases hqr : q = r'
          · subst hqr
            rcases hsd with ⟨_, hs⟩ | ⟨ps, hp, hs⟩
            · rw [hs, alookup_aset_self]
              rfl
            · rw [hs, hp]
              rfl
          · rw [memb_cons, if_neg (fun e => hqr e.symm)] at hq
            rcases hsd with ⟨_, hs⟩ | ⟨ps, hp, hs⟩
            · rw [hs, alookup_aset_ne _ _ (fun e => hqr e.symm)]
              exact hInv q hq
            · rw [hs]
              exact hInv q hq
        · obtain ⟨hr, hs⟩ := handleConnect_existing_fields st r' c' true hm
          rw [hr] at hq
          rw [hs]
          exact hInv q hq
    | binary r' c' now =>
        intro q hq
        simp only [step] at hq ⊢
        rw [(handleBinary_fields st r' c' now).1] at hq
        rw [(handleBinary_fields st r' c' now).2.2]
        exact hInv q hq
    | stop r' now okk =>
        have hokk : okk = true := by simpa [Event.allOk] using hok
        subst hokk
        intro q hq
        simp only [step] at hq ⊢
        rw [handleStop_rooms] at hq
        rcases handleStop_store st r' now with hs | hs <;> rw [hs]
        · exact hInv q hq
        · by_cases hqr : q = r'
          · subst hqr
            rw [alookup_aset_self]
            rfl
          · rw [alookup_aset_ne _ _ (fun e => hqr e.symm)]
            exact hInv q hq
    | getState r' c' =>
        intro q hq
        simp only [step] at hq ⊢
        rw [handleGetRoomState_state] at hq ⊢
        exact hInv q hq
    | close r' c' okk =>
        have hokk : okk = true := by simpa [Event.allOk] using hok
        subst hokk
        intro q hq
        simp only [step] at hq ⊢
        rcases handleClose_cases st r' c' true with ⟨hr, hs⟩ | ⟨hr, hsd⟩
        · rw [hr] at hq
          rw [hs]
          exact hInv q hq
        · rw [hr] at hq
          by_cases hqr : q = r'
          · subst hqr
            rw [memb_lerase_self] at hq
            exact Bool.noConfusion hq
          · rw [memb_lerase_ne _ (fun e => hqr e.symm)] at hq
            rcases hsd with hs | hs <;> rw [hs]
            · exact hInv q hq
            · rw [alookup_aerase_ne _ (fun e => hqr e.symm)]
              exact hInv q hq

theorem fresh_room_writes_default_record_witness :
    alookup "r" (handleConnect emptyState "r" 1 true).1.store
      = some ⟨true, none⟩ ∧
    (StoreInv emptyState → StoreInv (step emptyState (Event.getState "r" 1)).1) :=
  fresh_room_writes_default_record emptyState "r" 1 (Event.getState "r" 1)
    (by decide) (by decide) (by decide)
